import Mathlib

/-!
Verification development for the ModuSQL sync core (modu-sql repository).

The definitions below are a shallow embedding of the repository's
TypeScript sources:

* `src/database.ts` (class `Database`): the SQL engine wrapper with the
  operation log, checkpoint (savepoint) manager, reconciler
  (`applyOperation` / `rollbackAndReplay`) and persistence;
* `src/sync.ts` (class `SyncManager`): the transport adapter;
* `src/index.ts` (class `ModuSQL`): the public facade and client-id
  allocation.

The embedded SQL engine (sql.js / SQLite) is modelled by the semantics of
exactly the statement forms the code issues: CREATE TABLE IF NOT EXISTS,
plain INSERT, INSERT OR REPLACE, UPDATE with equality WHERE, DELETE with
equality WHERE, SAVEPOINT / RELEASE SAVEPOINT / ROLLBACK TO, and the two
internal tables `_modusql_meta` (whose only key used by the code is
`local_seq`, modelled as an `Option Nat` field) and `_modusql_ops`.
Wall-clock time (`Date.now()`) is passed as an explicit parameter.
-/

namespace ModuSql

/-- A SQL scalar value as used by the code's payloads (sql.js values). -/
inductive Value where
  | vNull
  | vInt (n : Int)
  | vText (s : String)
deriving DecidableEq, Repr

/-- A table row: an association of column name to value.  Rows built by
the modelled INSERT forms carry exactly the table's declared columns, in
declaration order, with `vNull` for unspecified columns (SQLite fills
absent columns with NULL; column DEFAULTs are never relied on by the
code's statements). -/
abbrev Row := List (String × Value)

/-- Model of the operation id string `<clientId>_<localSeq>_<wallclockMs>`
built in `createOperation`, kept as its three components ("uniqueness
relies on the triple"); equality of the triples models equality of the
id strings. -/
structure OpId where
  client : String
  localSeq : Nat
  ts : Nat
deriving DecidableEq, Repr

/-- The `data` record of an operation: an open mapping of column name to
value, where the reserved key `_where` (if present) carries a
column-to-value equality predicate.  `fields` are the entries other than
`_where`; `whereFields` is the `_where` entry when present. -/
structure OpData where
  fields : List (String × Value)
  whereFields : Option (List (String × Value))
deriving DecidableEq, Repr

/-- A confirmed (or wire) operation record, `src/types.ts` `Operation`.
`type` is a string at the wire level (the TypeScript union is not
enforced at runtime), matched against "INSERT" / "UPDATE" / "DELETE". -/
structure Operation where
  id : OpId
  seq : Nat
  table : String
  type : String
  data : OpData
  clientId : String
  localSeq : Option Nat
deriving DecidableEq, Repr

/-- A pending operation, `src/types.ts` `PendingOperation` (no `seq`). -/
structure PendingOperation where
  id : OpId
  table : String
  type : String
  data : OpData
  clientId : String
  localSeq : Nat
deriving DecidableEq, Repr

/-- `{...pending, seq: 0}` as built in `rollbackAndReplay`. -/
def pendingToOp (p : PendingOperation) : Operation :=
  { id := p.id, seq := 0, table := p.table, type := p.type,
    data := p.data, clientId := p.clientId, localSeq := some p.localSeq }

/-- Table schema, `src/types.ts` `TableSchema`: column names and the
optional PRIMARY KEY column list (the code interpolates
`PRIMARY KEY (<primaryKey>)`).  Column types / nullability / defaults
only shape the DDL string and are not read by any modelled statement. -/
structure TableSchema where
  name : String
  columns : List String
  primaryKey : Option (List String)
deriving DecidableEq, Repr

/-- A row of the internal `_modusql_ops` table. -/
structure OpsRow where
  id : OpId
  seq : Option Nat
  localSeq : Option Nat
  tableName : String
  opType : String
  data : OpData
  clientId : String
  confirmed : Bool
deriving DecidableEq, Repr

/-- A user table: declared columns, optional primary key, rows. -/
structure Table where
  cols : List String
  pk : Option (List String)
  rows : List Row
deriving DecidableEq, Repr

/-- The serialisable content of the sql.js database: user tables plus
the two internal tables (`_modusql_meta` holds only the `local_seq` key;
`_modusql_ops` the operation records). -/
structure DBFile where
  userTables : List (String × Table)
  metaLocalSeq : Option Nat
  opsTable : List OpsRow
deriving DecidableEq, Repr

def emptyFile : DBFile := { userTables := [], metaLocalSeq := none, opsTable := [] }

/-- A live sql.js connection: current content plus the savepoint stack
(most recent first).  Savepoint names are `modusql_seq_<n>`; since the
prefix is fixed, a savepoint name is modelled by its `n`.  `export()`
serialises `file` only — savepoints do not survive a reload. -/
structure EngineDB where
  file : DBFile
  savepoints : List (Nat × DBFile)
deriving DecidableEq, Repr

/-- SQL `c = v` equality predicate over a row, one conjunct per pair:
`c = NULL` never matches (SQL three-valued logic), and a column the row
does not carry holds NULL. -/
def rowMatches (w : Row) (r : Row) : Bool :=
  w.all fun cv => decide (r.lookup cv.1 = some cv.2 ∧ cv.2 ≠ Value.vNull)

/-- `UPDATE ... SET c = v` on one row: replace the binding of `c`
(first occurrence) or append it. -/
def setCol (c : String) (v : Value) : Row → Row
  | [] => [(c, v)]
  | (cHd, vHd) :: rest =>
      if cHd = c then (c, v) :: rest else (cHd, vHd) :: setCol c v rest

/-- Apply all SET pairs in order. -/
def setCols (s : List (String × Value)) (r : Row) : Row :=
  s.foldl (fun acc cv => setCol cv.1 cv.2 acc) r

/-- Row built by `INSERT INTO t (cols...) VALUES (...)`: every declared
column, with NULL for columns the statement does not mention. -/
def mkRow (cols : List String) (fields : List (String × Value)) : Row :=
  cols.map fun c => (c, (fields.lookup c).getD Value.vNull)

/-- Whether every key of `fields` names a declared column. -/
def keysDeclared (fields : List (String × Value)) (cols : List String) : Bool :=
  fields.all fun cv => decide (cv.1 ∈ cols)

/-- SQLite uniqueness conflict between two rows on the primary key:
all pk columns present, equal, and non-NULL (NULL primary keys are
distinct in SQLite).  A table with no PRIMARY KEY has no conflicts. -/
def pkConflict (pk : Option (List String)) (r1 r2 : Row) : Bool :=
  match pk with
  | none => false
  | some cols =>
      cols.all fun c =>
        match r1.lookup c, r2.lookup c with
        | some v1, some v2 => decide (v1 = v2 ∧ v1 ≠ Value.vNull)
        | _, _ => false

def lookupTable (f : DBFile) (name : String) : Option Table :=
  f.userTables.lookup name

def putTable (f : DBFile) (name : String) (t : Table) : DBFile :=
  { f with userTables :=
      f.userTables.map fun p => if p.1 = name then (name, t) else p }

/-- `CREATE TABLE IF NOT EXISTS name (cols..., PRIMARY KEY (pk))`.
If the table exists the statement is a no-op; otherwise SQLite rejects
duplicate column names, an empty PRIMARY KEY list and pk columns that
are not declared columns. -/
def stmtCreateTable (f : DBFile) (sch : TableSchema) : Except String DBFile :=
  match lookupTable f sch.name with
  | some _ => .ok f
  | none =>
      if sch.columns = [] then .error "near \x22)\x22: syntax error"
      else if ¬ sch.columns.Nodup then .error "duplicate column name"
      else
        match sch.primaryKey with
        | some [] => .error "near \x22)\x22: syntax error"
        | some pkCols =>
            if pkCols.all (fun c => decide (c ∈ sch.columns)) then
              .ok { f with userTables :=
                f.userTables ++ [(sch.name, ⟨sch.columns, some pkCols, []⟩)] }
            else .error "no such column in primary key"
        | none =>
            .ok { f with userTables :=
              f.userTables ++ [(sch.name, ⟨sch.columns, none, []⟩)] }

/-- Plain `INSERT INTO t (cols) VALUES (vals)`: zero columns is a syntax
error, undeclared columns and uniqueness conflicts raise errors. -/
def stmtInsertPlain (f : DBFile) (tname : String)
    (fields : List (String × Value)) : Except String DBFile :=
  if fields = [] then .error "syntax error in INSERT"
  else
    match lookupTable f tname with
    | none => .error ("no such table: " ++ tname)
    | some t =>
        if ¬ keysDeclared fields t.cols then .error "no such column"
        else
          let row := mkRow t.cols fields
          if t.rows.any (fun r => pkConflict t.pk r row) then
            .error "UNIQUE constraint failed"
          else .ok (putTable f tname { t with rows := t.rows ++ [row] })

/-- `INSERT OR REPLACE INTO t (cols) VALUES (vals)`: conflicting rows
are deleted, then the new row is appended. -/
def stmtInsertOrReplace (f : DBFile) (tname : String)
    (fields : List (String × Value)) : Except String DBFile :=
  if fields = [] then .error "syntax error in INSERT"
  else
    match lookupTable f tname with
    | none => .error ("no such table: " ++ tname)
    | some t =>
        if ¬ keysDeclared fields t.cols then .error "no such column"
        else
          let row := mkRow t.cols fields
          .ok (putTable f tname
            { t with rows := t.rows.filter (fun r => ¬ pkConflict t.pk r row) ++ [row] })

/-- `UPDATE t SET c=?,... WHERE c=? AND ...`: the code builds the SET and
WHERE fragments by joining over the record keys, so an empty record on
either side yields malformed SQL (an error on run). -/
def stmtUpdate (f : DBFile) (tname : String)
    (sets wher : List (String × Value)) : Except String DBFile :=
  if sets = [] ∨ wher = [] then .error "syntax error in UPDATE"
  else
    match lookupTable f tname with
    | none => .error ("no such table: " ++ tname)
    | some t =>
        if ¬ (keysDeclared sets t.cols && keysDeclared wher t.cols) then
          .error "no such column"
        else
          .ok (putTable f tname
            { t with rows :=
                t.rows.map fun r => if rowMatches wher r then setCols sets r else r })

/-- `DELETE FROM t WHERE c=? AND ...`; an empty WHERE record yields
malformed SQL. -/
def stmtDelete (f : DBFile) (tname : String)
    (wher : List (String × Value)) : Except String DBFile :=
  if wher = [] then .error "syntax error in DELETE"
  else
    match lookupTable f tname with
    | none => .error ("no such table: " ++ tname)
    | some t =>
        if ¬ keysDeclared wher t.cols then .error "no such column"
        else
          .ok (putTable f tname
            { t with rows := t.rows.filter fun r => ¬ rowMatches wher r })

/-- `RELEASE SAVEPOINT modusql_seq_<n>`: pops the most recent savepoint
named `n` and every savepoint above it; `none` when no such savepoint. -/
def releaseSp (n : Nat) : List (Nat × DBFile) → Option (List (Nat × DBFile))
  | [] => none
  | (m, _) :: rest => if m = n then some rest else releaseSp n rest

/-- `ROLLBACK TO modusql_seq_<n>`: restores the content saved by the most
recent savepoint named `n`, cancelling savepoints opened after it while
keeping `n` itself; `none` when no such savepoint. -/
def rollbackToSp (n : Nat) :
    List (Nat × DBFile) → Option (List (Nat × DBFile) × DBFile)
  | [] => none
  | (m, f) :: rest =>
      if m = n then some ((m, f) :: rest, f) else rollbackToSp n rest

/-! ## The blob store (browser localStorage) -/

/-- A value persisted in localStorage: the serialized database blob
(`JSON.stringify(Array.from(db.export()))`, kept as the `DBFile` it
deserialises back to) or a plain string. -/
inductive StoredVal where
  | blob (f : DBFile)
  | str (s : String)
deriving DecidableEq, Repr

abbrev Store := List (String × StoredVal)

def storeGet (st : Store) (k : String) : Option StoredVal := st.lookup k

/-- `localStorage.setItem`. -/
def storePut (st : Store) (k : String) (v : StoredVal) : Store :=
  match st with
  | [] => [(k, v)]
  | (kHd, vHd) :: rest =>
      if kHd = k then (k, v) :: rest else (kHd, vHd) :: storePut rest k v

/-- The blob key used by `Database.init` / `Database.persist`:
`modusql_<dbName>`. -/
def blobKey (dbName : String) : String := "modusql_" ++ dbName

/-- The key used by `ModuSQL.generateClientId` — a fixed literal, with no
database-name component. -/
def clientIdKey : String := "modusql_client_id"

/-! ## The Database class (`src/database.ts`) -/

/-- Instrumentation of the checkpoint primitive calls and the apply
dispatch, in the order the code performs them; recording these effects
makes the reconciler's internal ordering an observable of the model. -/
inductive Ev where
  | applyOp (id : OpId)
  | rollbackTo (n : Nat)
  | rollbackFailed (n : Nat)
  | release (n : Nat) (ok : Bool)
  | savepoint (n : Nat)
deriving DecidableEq, Repr

/-- The mutable fields of class `Database`, plus the event/log
instrumentation (`log` collects console output, `evs` the checkpoint
and apply-dispatch effects). -/
structure DBState where
  db : Option EngineDB
  dbName : String
  clientId : String
  localSeqCounter : Nat
  confirmedSeq : Nat
  savepointSeq : Nat
  pendingOps : List PendingOperation
  confirmedOps : List Operation
  evs : List Ev
  log : List String
deriving DecidableEq, Repr

/-- `new Database(dbName, clientId)`. -/
def Database.mkNew (dbName clientId : String) : DBState :=
  { db := none, dbName := dbName, clientId := clientId,
    localSeqCounter := 0, confirmedSeq := 0, savepointSeq := 0,
    pendingOps := [], confirmedOps := [], evs := [], log := [] }

/-- `Database.init`: deserialize the saved blob if present (fresh file
otherwise), ensure the internal tables exist (structural no-ops here:
the `DBFile` fields always exist), and read `local_seq` from the meta
table into `localSeqCounter` when the row exists.  Note that the pending
queue is *not* rebuilt from the persisted unconfirmed `_modusql_ops`
rows. -/
def Database.init (s : DBState) (store : Store) : DBState :=
  let file :=
    match storeGet store (blobKey s.dbName) with
    | some (.blob f) => f
    | _ => emptyFile
  let counter := file.metaLocalSeq.getD s.localSeqCounter
  { s with db := some { file := file, savepoints := [] },
           localSeqCounter := counter }

/-- `Database.persist`: serialize the engine and write it under the
namespaced blob key; a no-op when not initialized. -/
def Database.persist (s : DBState) (store : Store) : Store :=
  match s.db with
  | none => store
  | some e => storePut store (blobKey s.dbName) (.blob e.file)

/-- `Database.close`: persist, then drop the engine handle. -/
def Database.close (s : DBState) (store : Store) : DBState × Store :=
  match s.db with
  | none => (s, store)
  | some _ => ({ s with db := none }, Database.persist s store)

/-- Run one engine statement against the live connection's content,
keeping the savepoint stack. -/
def runStmt (e : EngineDB) (r : Except String DBFile) :
    Except String EngineDB :=
  match r with
  | .error m => .error m
  | .ok f => .ok { e with file := f }

/-- `Database.createTable`: DDL passthrough plus persist. -/
def Database.createTable (s : DBState) (store : Store) (sch : TableSchema) :
    Except String Unit × DBState × Store :=
  match s.db with
  | none => (.error "Database not initialized", s, store)
  | some e =>
      match runStmt e (stmtCreateTable e.file sch) with
      | .error m => (.error m, s, store)
      | .ok e2 =>
          let s2 := { s with db := some e2 }
          (.ok (), s2, Database.persist s2 store)

/-- `Database.createOperation`: assign the next `localSeq`, append to the
pending queue, record the pending row in `_modusql_ops` (a *plain*
INSERT on the `id` primary key: a duplicate id raises), update the
`local_seq` meta row, persist.  When the ops-row insert raises, the
counter increment and the queue push have already happened and the
exception propagates with the meta update and persist skipped — matching
the source's statement order. -/
def Database.createOperation (s : DBState) (store : Store) (nowMs : Nat)
    (table type : String) (data : OpData) :
    Except String PendingOperation × DBState × Store :=
  let n := s.localSeqCounter + 1
  let op : PendingOperation :=
    { id := { client := s.clientId, localSeq := n, ts := nowMs },
      table := table, type := type, data := data,
      clientId := s.clientId, localSeq := n }
  let s1 := { s with localSeqCounter := n, pendingOps := s.pendingOps ++ [op] }
  match s1.db with
  | none => (.error "Database not initialized", s1, store)
  | some e =>
      if e.file.opsTable.any (fun row => decide (row.id = op.id)) then
        (.error "UNIQUE constraint failed: _modusql_ops.id", s1, store)
      else
        let newRow : OpsRow :=
          { id := op.id, seq := none, localSeq := some n,
            tableName := table, opType := type, data := data,
            clientId := s.clientId, confirmed := false }
        let f2 := { e.file with opsTable := e.file.opsTable ++ [newRow] }
        let f3 := { f2 with metaLocalSeq := some n }
        let s2 := { s1 with db := some { e with file := f3 } }
        (.ok op, s2, Database.persist s2 store)

/-- `Database.insert`: run the plain INSERT, then log the operation.
An engine error propagates before any operation is created. -/
def Database.insert (s : DBState) (store : Store) (nowMs : Nat)
    (table : String) (data : List (String × Value)) :
    Except String PendingOperation × DBState × Store :=
  match s.db with
  | none => (.error "Database not initialized", s, store)
  | some e =>
      match runStmt e (stmtInsertPlain e.file table data) with
      | .error m => (.error m, s, store)
      | .ok e2 =>
          let s2 := { s with db := some e2 }
          let r := Database.createOperation s2 store nowMs table "INSERT"
            { fields := data, whereFields := none }
          (r.1, r.2.1, Database.persist r.2.1 r.2.2)

/-- `Database.update`: run the UPDATE, then log the operation with
`{...data, _where: where}` as its payload. -/
def Database.update (s : DBState) (store : Store) (nowMs : Nat)
    (table : String) (data wher : List (String × Value)) :
    Except String PendingOperation × DBState × Store :=
  match s.db with
  | none => (.error "Database not initialized", s, store)
  | some e =>
      match runStmt e (stmtUpdate e.file table data wher) with
      | .error m => (.error m, s, store)
      | .ok e2 =>
          let s2 := { s with db := some e2 }
          let r := Database.createOperation s2 store nowMs table "UPDATE"
            { fields := data, whereFields := some wher }
          (r.1, r.2.1, Database.persist r.2.1 r.2.2)

/-- `Database.delete`: run the DELETE, then log the operation with
`{_where: where}` as its payload. -/
def Database.delete (s : DBState) (store : Store) (nowMs : Nat)
    (table : String) (wher : List (String × Value)) :
    Except String PendingOperation × DBState × Store :=
  match s.db with
  | none => (.error "Database not initialized", s, store)
  | some e =>
      match runStmt e (stmtDelete e.file table wher) with
      | .error m => (.error m, s, store)
      | .ok e2 =>
          let s2 := { s with db := some e2 }
          let r := Database.createOperation s2 store nowMs table "DELETE"
            { fields := [], whereFields := some wher }
          (r.1, r.2.1, Database.persist r.2.1 r.2.2)

/-- `query('SELECT * FROM <table>')`, the read-only SELECT form the
scenarios use: the rows of the named user table. -/
def Database.selectAllRows (s : DBState) (table : String) :
    Option (List Row) :=
  s.db.bind fun e => (lookupTable e.file table).map (·.rows)

/-- `Database.getPendingCount`. -/
def Database.getPendingCount (s : DBState) : Nat := s.pendingOps.length

/-! ## SQL Apply (`applyOp` / `applyInsert` / `applyUpdate` /
`applyDelete`): engine errors are caught and logged, never rethrown. -/

/-- The engine effect of `applyOp` on the database content: dispatch on
`op.type` (`applyInsert` uses INSERT OR REPLACE on `data` minus
`_where`; `applyUpdate` / `applyDelete` build equality WHERE clauses
from `_where`, defaulting to the empty record).  The switch has no
default branch, so any other `type` leaves the content unchanged.  A
failed statement leaves the content unchanged and yields a console
warning, mirroring the try/catch in each helper. -/
def applyOpFile (f : DBFile) (op : Operation) : DBFile × List String :=
  match op.type with
  | "INSERT" =>
      match stmtInsertOrReplace f op.table op.data.fields with
      | .ok f2 => (f2, [])
      | .error m => (f, ["Failed to apply INSERT: " ++ m])
  | "UPDATE" =>
      match stmtUpdate f op.table op.data.fields (op.data.whereFields.getD []) with
      | .ok f2 => (f2, [])
      | .error m => (f, ["Failed to apply UPDATE: " ++ m])
  | "DELETE" =>
      match stmtDelete f op.table (op.data.whereFields.getD []) with
      | .ok f2 => (f2, [])
      | .error m => (f, ["Failed to apply DELETE: " ++ m])
  | _ => (f, [])

/-- `this.applyOp(op)` as invoked on the live `Database`: record the
dispatch event and fold the engine effect and warnings into the state. -/
def Database.runApplyOp (s : DBState) (op : Operation) : DBState :=
  match s.db with
  | none => { s with evs := s.evs ++ [Ev.applyOp op.id] }
  | some e =>
      let r := applyOpFile e.file op
      { s with db := some { e with file := r.1 },
               log := s.log ++ r.2,
               evs := s.evs ++ [Ev.applyOp op.id] }

/-! ## Checkpoint manager and reconciler -/

/-- `Database.createSavepoint`: release the previous named savepoint when
`savepointSeq > 0` (a failed release is swallowed), set
`savepointSeq := confirmedSeq`, and open `SAVEPOINT modusql_seq_<n>` at
the current engine state. -/
def Database.createSavepoint (s : DBState) : DBState :=
  match s.db with
  | none => s
  | some e =>
      let rel :=
        if s.savepointSeq > 0 then
          match releaseSp s.savepointSeq e.savepoints with
          | some sps => (sps, [Ev.release s.savepointSeq true])
          | none => (e.savepoints, [Ev.release s.savepointSeq false])
        else (e.savepoints, [])
      let n := s.confirmedSeq
      { s with savepointSeq := n,
               db := some { e with savepoints := (n, e.file) :: rel.1 },
               evs := s.evs ++ rel.2 ++ [Ev.savepoint n] }

/-- `Database.rollbackAndReplay`: roll the engine back to
`modusql_seq_<savepointSeq>`, re-apply the new confirmed operation,
re-apply every pending operation (with `seq: 0`), and create a fresh
savepoint.  Only the ROLLBACK TO statement can throw inside the `try`;
the failure is caught and logged and the state is left as it was. -/
def Database.rollbackAndReplay (s : DBState) (newOp : Operation) : DBState :=
  match s.db with
  | none => s
  | some e =>
      let s1 := { s with log := s.log ++ ["Rolling back and replaying"] }
      match rollbackToSp s.savepointSeq e.savepoints with
      | none =>
          { s1 with log := s1.log ++ ["Rollback failed"],
                    evs := s1.evs ++ [Ev.rollbackFailed s.savepointSeq] }
      | some (sps, f) =>
          let s2 := { s1 with db := some { file := f, savepoints := sps },
                              evs := s1.evs ++ [Ev.rollbackTo s.savepointSeq] }
          let s3 := Database.runApplyOp s2 newOp
          let s4 := s3.pendingOps.foldl
            (fun acc p => Database.runApplyOp acc (pendingToOp p)) s3
          Database.createSavepoint s4

/-- The `INSERT OR REPLACE INTO _modusql_ops ... confirmed = 1` record
update at the end of `applyOperation`; the statement names no
`local_seq` column, so the replacing row stores NULL there. -/
def Database.opsWriteConfirmed (s : DBState) (op : Operation) : DBState :=
  match s.db with
  | none => s
  | some e =>
      let newRow : OpsRow :=
        { id := op.id, seq := some op.seq, localSeq := none,
          tableName := op.table, opType := op.type, data := op.data,
          clientId := op.clientId, confirmed := true }
      let f2 := { e.file with opsTable :=
        e.file.opsTable.filter (fun row => ¬ row.id = op.id) ++ [newRow] }
      { s with db := some { e with file := f2 } }

/-- `Database.applyOperation`, the reconciler: branch on
`op.seq` versus `expectedSeq = confirmedSeq + 1` and on whether `op.id`
is in the pending queue; a duplicate (`op.seq ≤ confirmedSeq`) returns
early with no state change; otherwise finish with the
pending-reorder check, the confirmed ops-row write and a persist. -/
def Database.applyOperation (s : DBState) (store : Store) (op : Operation) :
    Except String Unit × DBState × Store :=
  match s.db with
  | none => (.error "Database not initialized", s, store)
  | some _ =>
      let expectedSeq := s.confirmedSeq + 1
      let pIdx := s.pendingOps.findIdx? fun p => decide (p.id = op.id)
      let isPending := pIdx.isSome
      let branch : Option DBState :=
        if op.seq = expectedSeq then
          let sA :=
            match pIdx with
            | some i => { s with pendingOps := s.pendingOps.eraseIdx i }
            | none => Database.runApplyOp s op
          let sB := { sA with confirmedSeq := op.seq,
                              confirmedOps := sA.confirmedOps ++ [op] }
          some (Database.createSavepoint sB)
        else if op.seq > expectedSeq then
          let sA := { s with log := s.log ++ ["Received out-of-order seq"] }
          let sB := if isPending then sA else Database.runApplyOp sA op
          some { sB with confirmedSeq := op.seq,
                         confirmedOps := sB.confirmedOps ++ [op] }
        else if op.seq ≤ s.confirmedSeq then
          none
        else
          some s
      match branch with
      | none => (.ok (), s, store)
      | some s2 =>
          let s3 :=
            if s2.pendingOps.length > 0 && !isPending then
              Database.rollbackAndReplay s2 op
            else s2
          let s4 := Database.opsWriteConfirmed s3 op
          (.ok (), s4, Database.persist s4 store)

/-! ## Transport adapter (`src/sync.ts`, class `SyncManager`) -/

/-- The envelope sent on the wire: `{type: 'sumql_op', operation: op}`
(the `type` field is an arbitrary string on arrival). -/
structure Envelope where
  type : String
  operation : PendingOperation
deriving DecidableEq, Repr

/-- A transport input as delivered by the network (`NetworkInput`);
`data` is the envelope when one was attached (`input.data?.` guards a
missing payload). -/
structure NetworkInput where
  id : String
  clientId : String
  type : String
  data : Option Envelope
  seq : Nat
deriving DecidableEq, Repr

/-- `SyncManager.inputToOperation`: `null` unless the payload's type is
the literal 'sumql_op'; otherwise `{...input.data.operation, seq: input.seq}`. -/
def SyncManager.inputToOperation (input : NetworkInput) : Option Operation :=
  match input.data with
  | none => none
  | some d =>
      if d.type = "sumql_op" then
        some { id := d.operation.id, seq := input.seq,
               table := d.operation.table, type := d.operation.type,
               data := d.operation.data, clientId := d.operation.clientId,
               localSeq := some d.operation.localSeq }
      else none

/-- `SyncManager.handleLocalOperation`: when a connection exists and the
manager is online, send `{type: 'sumql_op', operation: op}`; the sent
envelope (if any) is the result. -/
def SyncManager.handleLocalOperation (connected online : Bool)
    (op : PendingOperation) : Option Envelope :=
  if connected && online then some { type := "sumql_op", operation := op }
  else none

/-- `SyncManager.flushPendingOps`: the envelopes sent for the queued
pending operations, in queue order. -/
def SyncManager.flushPendingOps (connected online : Bool)
    (pending : List PendingOperation) : List Envelope :=
  if connected && online then
    pending.map fun op => { type := "sumql_op", operation := op }
  else []

/-- The transport `onInput` handler: convert the input and, when the
conversion yields an operation, apply it and fire the `onInput`
callback with it (third component: the callback payloads fired).  A
`null` conversion does nothing at all. -/
def SyncManager.onInputStep (s : DBState) (store : Store)
    (input : NetworkInput) : DBState × Store × List Operation :=
  match SyncManager.inputToOperation input with
  | none => (s, store, [])
  | some op =>
      match Database.applyOperation s store op with
      | (.ok _, s2, st2) => (s2, st2, [op])
      | (.error _, s2, st2) => (s2, st2, [])

/-! ## Public facade (`src/index.ts`, class `ModuSQL`) -/

/-- `ModuSQL.generateClientId`: read the stored id from the fixed
localStorage key `modusql_client_id` if present; otherwise mint
`client_<Date.now()>_<random>` and store it under that same fixed key.
The function takes no database name. -/
def ModuSQL.generateClientId (store : Store) (nowMs : Nat) (rand : String) :
    String × Store :=
  match storeGet store clientIdKey with
  | some (.str s) => (s, store)
  | _ =>
      let id := "client_" ++ Nat.repr nowMs ++ "_" ++ rand
      (id, storePut store clientIdKey (.str id))

/-! ## The spec's rollback-replay procedure (for comparison with the
code's reconciler) -/

/-- Modelled from the spec: the rollback-replay order of spec section
4.D transition 3 — start from the checkpointed state at the previous
`confirmedSeq`, apply the new remote operation once, then re-apply
every pending operation in `localSeq` order.  This definition follows
the spec's words, not the source, and exists to be compared against
what `Database.applyOperation` actually does. -/
def specRollbackReplay (checkpoint : DBFile) (newOp : Operation)
    (pending : List PendingOperation) : DBFile :=
  let f1 := (applyOpFile checkpoint newOp).1
  pending.foldl (fun f p => (applyOpFile f (pendingToOp p)).1) f1

/-! ## A database lifetime of local mutations (for the localSeq claims):
the public mutating calls and close/reopen cycles of one client, with no
network activity.  Each event is an independent user action; an
exception from a call propagates to the caller and the next event runs
against the object state the call left behind. -/

inductive LEvent where
  | mkTable (sch : TableSchema)
  | ins (nowMs : Nat) (table : String) (data : List (String × Value))
  | upd (nowMs : Nat) (table : String) (data wher : List (String × Value))
  | del (nowMs : Nat) (table : String) (wher : List (String × Value))
  | reopen
deriving Repr

structure LifeState where
  s : DBState
  store : Store
  produced : List Nat
deriving Repr

/-- The `localSeq` values assigned during one call: the tail of the
pending queue beyond what was queued before the call (operations are
born by being pushed onto the queue in `createOperation`). -/
def newlyProduced (old new : DBState) : List Nat :=
  (new.pendingOps.map (·.localSeq)).drop old.pendingOps.length

def lifeStep (ls : LifeState) : LEvent → LifeState
  | .mkTable sch =>
      let r := Database.createTable ls.s ls.store sch
      ⟨r.2.1, r.2.2, ls.produced⟩
  | .ins nowMs t d =>
      let r := Database.insert ls.s ls.store nowMs t d
      ⟨r.2.1, r.2.2, ls.produced ++ newlyProduced ls.s r.2.1⟩
  | .upd nowMs t d w =>
      let r := Database.update ls.s ls.store nowMs t d w
      ⟨r.2.1, r.2.2, ls.produced ++ newlyProduced ls.s r.2.1⟩
  | .del nowMs t w =>
      let r := Database.delete ls.s ls.store nowMs t w
      ⟨r.2.1, r.2.2, ls.produced ++ newlyProduced ls.s r.2.1⟩
  | .reopen =>
      let c := Database.close ls.s ls.store
      ⟨Database.init (Database.mkNew ls.s.dbName ls.s.clientId) c.2, c.2,
       ls.produced⟩

/-- A whole lifetime from a fresh host: construct, init on an empty
store, then run the events. -/
def runLifetime (dbName cid : String) (evs : List LEvent) : LifeState :=
  evs.foldl lifeStep ⟨Database.init (Database.mkNew dbName cid) [], [], []⟩

/-- The `local_seq` metadata row as seen through the live engine. -/
def dbMeta (s : DBState) : Option Nat := s.db.bind (·.file.metaLocalSeq)

/-! ## Concrete scenarios -/

/-- Schema `t(id TEXT PK, v INT)` of spec scenario S1. -/
def scT : TableSchema :=
  { name := "t", columns := ["id", "v"], primaryKey := some ["id"] }

/-- Spec scenario S1: create table `t`, insert one row offline, close,
reopen from the persisted blob. -/
def c1Run : DBState :=
  let s0 := Database.init (Database.mkNew "app" "cidA") []
  let r1 := Database.createTable s0 [] scT
  let r2 := Database.insert r1.2.1 r1.2.2 5 "t"
    [("id", Value.vText "a"), ("v", Value.vInt 1)]
  let cl := Database.close r2.2.1 r2.2.2
  Database.init (Database.mkNew "app" "cidA") cl.2

/-- Schema `t(id TEXT PK, w INT)` for the reconciler scenarios. -/
def scW : TableSchema :=
  { name := "t", columns := ["id", "w"], primaryKey := some ["id"] }

/-- Remote op from client B: `INSERT INTO t {id:'x', w:0}` at seq 1. -/
def opB1 : Operation :=
  { id := { client := "B", localSeq := 1, ts := 0 }, seq := 1,
    table := "t", type := "INSERT",
    data := { fields := [("id", Value.vText "x"), ("w", Value.vInt 0)],
              whereFields := none },
    clientId := "B", localSeq := some 1 }

/-- Remote op from client B: `DELETE FROM t WHERE w = 1` at seq 2. -/
def opB2del : Operation :=
  { id := { client := "B", localSeq := 2, ts := 0 }, seq := 2,
    table := "t", type := "DELETE",
    data := { fields := [], whereFields := some [("w", Value.vInt 1)] },
    clientId := "B", localSeq := some 2 }

/-- Remote op from client B: `INSERT INTO t {id:'z', w:7}` at seq 3
(delivered as a gap-ahead arrival). -/
def opB3 : Operation :=
  { id := { client := "B", localSeq := 3, ts := 0 }, seq := 3,
    table := "t", type := "INSERT",
    data := { fields := [("id", Value.vText "z"), ("w", Value.vInt 7)],
              whereFields := none },
    clientId := "B", localSeq := some 3 }

/-- Client A's state after: init fresh, create `t`, receive `opB1`
(seq 1, establishes the checkpoint at 1). -/
def c2AfterOp1 : DBState × Store :=
  let s0 := Database.init (Database.mkNew "app" "A") []
  let r1 := Database.createTable s0 [] scW
  let r2 := Database.applyOperation r1.2.1 r1.2.2 opB1
  (r2.2.1, r2.2.2)

/-- ... then mutate locally: `UPDATE t SET w = 1 WHERE id = 'x'`
(pending, localSeq 1). -/
def c2AfterUpd : DBState × Store :=
  let r := Database.update c2AfterOp1.1 c2AfterOp1.2 9 "t"
    [("w", Value.vInt 1)] [("id", Value.vText "x")]
  (r.2.1, r.2.2)

/-- ... then receive the in-order remote `opB2del` (seq 2) while the
pending queue is non-empty: the rollback-replay input of claim C2. -/
def c2Final : DBState :=
  (Database.applyOperation c2AfterUpd.1 c2AfterUpd.2 opB2del).2.1

/-- The snapshot held by the live checkpoint just before `opB2del` is
handled (the savepoint taken at `confirmedSeq = 1`). -/
def c2Checkpoint : DBFile :=
  match c2AfterUpd.1.db with
  | some e => ((e.savepoints.headD (0, emptyFile)).2)
  | none => emptyFile

/-- Client A's state after: init fresh, create `t`, receive `opB1`,
insert `{id:'y', w:5}` locally (pending) — the state on which the
gap-ahead arrival `opB3` lands for claim C3. -/
def c3Before : DBState × Store :=
  let r := Database.insert c2AfterOp1.1 c2AfterOp1.2 9 "t"
    [("id", Value.vText "y"), ("w", Value.vInt 5)]
  (r.2.1, r.2.2)

def c3Final : DBState :=
  (Database.applyOperation c3Before.1 c3Before.2 opB3).2.1

/-- A pending operation used by the wire-format scenarios. -/
def pendX : PendingOperation :=
  { id := { client := "A", localSeq := 1, ts := 0 }, table := "t",
    type := "INSERT",
    data := { fields := [("id", Value.vText "a")], whereFields := none },
    clientId := "A", localSeq := 1 }

/-- A file with a single PRIMARY-KEY-less table, and an INSERT into it
(for the idempotence counterexample). -/
def uNoPk : DBFile :=
  { userTables := [("u", { cols := ["id"], pk := none, rows := [] })],
    metaLocalSeq := none, opsTable := [] }

/-- The file content holding the empty table `t(id TEXT PK, w INT)`
(for the idempotence witness). -/
def wPkFile : DBFile :=
  { userTables := [("t", { cols := ["id", "w"], pk := some ["id"], rows := [] })],
    metaLocalSeq := none, opsTable := [] }

def opU : Operation :=
  { id := { client := "C", localSeq := 1, ts := 0 }, seq := 1,
    table := "u", type := "INSERT",
    data := { fields := [("id", Value.vText "a")], whereFields := none },
    clientId := "C", localSeq := some 1 }

/-- An operation whose `type` is not one of the three handled cases. -/
def opUpsert : Operation :=
  { id := { client := "C", localSeq := 2, ts := 0 }, seq := 2,
    table := "u", type := "UPSERT",
    data := { fields := [("id", Value.vText "a")], whereFields := none },
    clientId := "C", localSeq := some 2 }

/-- An in-order remote INSERT on a table this client never created
(for the swallowed-apply-failure witness). -/
def opMissingTable : Operation :=
  { id := { client := "B", localSeq := 9, ts := 0 }, seq := 2,
    table := "nosuch", type := "INSERT",
    data := { fields := [("id", Value.vText "q")], whereFields := none },
    clientId := "B", localSeq := some 9 }

/-! # Helper lemmas -/

theorem storeGet_storePut_self (st : Store) (k : String) (v : StoredVal) :
    storeGet (storePut st k v) k = some v := by
  induction st with
  | nil => simp [storePut, storeGet, List.lookup]
  | cons hd tl ih =>
      obtain ⟨k1, v1⟩ := hd
      by_cases h : k1 = k
      · subst h; simp [storePut, storeGet, List.lookup]
      · have hb : (k == k1) = false := by simp [Ne.symm h]
        simpa [storePut, storeGet, List.lookup, h, hb] using ih

theorem storeGet_storePut_ne (st : Store) (k k₂ : String) (v : StoredVal)
    (h : k₂ ≠ k) : storeGet (storePut st k v) k₂ = storeGet st k₂ := by
  induction st with
  | nil =>
      have hb : (k₂ == k) = false := by simp [h]
      simp [storePut, storeGet, List.lookup, hb]
  | cons hd tl ih =>
      obtain ⟨k1, v1⟩ := hd
      by_cases hh : k1 = k
      · subst hh
        have hb : (k₂ == k1) = false := by simp [h]
        simp [storePut, storeGet, List.lookup, hb]
      · by_cases h2 : k₂ = k1
        · subst h2
          simp [storePut, storeGet, List.lookup, hh]
        · have hb : (k₂ == k1) = false := by simp [h2]
          simpa [storePut, storeGet, List.lookup, hh, hb] using ih

theorem runApplyOp_savepointSeq (s : DBState) (op : Operation) :
    (Database.runApplyOp s op).savepointSeq = s.savepointSeq := by
  unfold Database.runApplyOp; cases s.db <;> rfl

theorem runApplyOp_pendingOps (s : DBState) (op : Operation) :
    (Database.runApplyOp s op).pendingOps = s.pendingOps := by
  unfold Database.runApplyOp; cases s.db <;> rfl

theorem runApplyOp_confirmedSeq (s : DBState) (op : Operation) :
    (Database.runApplyOp s op).confirmedSeq = s.confirmedSeq := by
  unfold Database.runApplyOp; cases s.db <;> rfl

theorem opsWriteConfirmed_savepointSeq (s : DBState) (op : Operation) :
    (Database.opsWriteConfirmed s op).savepointSeq = s.savepointSeq := by
  unfold Database.opsWriteConfirmed; cases s.db <;> rfl

/-! ## Lemmas about the SQL statement semantics, towards idempotence of
the apply path (claim C6) -/

/-- A table is wellformed when its declared column names are distinct
and every row carries exactly the declared columns; every table built
through the modelled statements satisfies this. -/
def WFTable (t : Table) : Prop :=
  t.cols.Nodup ∧ ∀ r ∈ t.rows, r.map Prod.fst = t.cols

def WFFile (f : DBFile) : Prop := ∀ p ∈ f.userTables, WFTable p.2

theorem lookup_mem {β : Type} {l : List (String × β)} {k : String} {v : β}
    (h : l.lookup k = some v) : (k, v) ∈ l := by
  induction l with
  | nil => cases h
  | cons hd tl ih =>
      obtain ⟨k1, v1⟩ := hd
      by_cases hk : k = k1
      · subst hk
        have hb : (k == k) = true := by simp
        simp only [List.lookup, hb] at h
        cases h
        exact List.mem_cons_self _ _
      · have hb : (k == k1) = false := by simp [hk]
        simp only [List.lookup, hb] at h
        exact List.mem_cons_of_mem _ (ih h)

/-- The value a SET-pair sequence leaves in column `c` when the column
started at `v`: the last binding for `c` wins. -/
def applyLast (s : List (String × Value)) (c : String) (v : Value) : Value :=
  s.foldl (fun acc cv => if cv.1 = c then cv.2 else acc) v

theorem applyLast_idem (s : List (String × Value)) (c : String) (v : Value) :
    applyLast s c (applyLast s c v) = applyLast s c v := by
  induction s generalizing v with
  | nil => rfl
  | cons cv s ih =>
      by_cases h : cv.1 = c
      · simp [applyLast, h]
      · simpa [applyLast, h] using ih v

theorem setCol_eq_map (c : String) (v : Value) (r : Row)
    (hnd : (r.map Prod.fst).Nodup) (hc : c ∈ r.map Prod.fst) :
    setCol c v r = r.map fun p => if p.1 = c then (c, v) else p := by
  induction r with
  | nil => cases hc
  | cons hd tl ih =>
      obtain ⟨k, u⟩ := hd
      rw [List.map_cons, List.nodup_cons] at hnd
      rw [List.map_cons] at hc
      by_cases h : k = c
      · subst h
        have hmap : (tl.map fun p => if p.1 = k then (k, v) else p) = tl := by
          have hpw : ∀ p ∈ tl, (if p.1 = k then ((k, v) : String × Value) else p) = p := by
            intro p hp
            have hpk : ¬ p.1 = k := by
              intro hpk
              apply hnd.1
              have hmem : p.1 ∈ tl.map Prod.fst := List.mem_map_of_mem Prod.fst hp
              rwa [hpk] at hmem
            simp [hpk]
          rw [List.map_congr_left hpw, List.map_id']
        simp [setCol, hmap]
      · have hc2 : c ∈ tl.map Prod.fst := by
          rcases List.mem_cons.mp hc with h1 | h1
          · exact absurd h1.symm h
          · exact h1
        simp only [setCol, if_neg h, List.map_cons, if_neg h]
        rw [ih hnd.2 hc2]

theorem setCols_cons (cv : String × Value) (s : List (String × Value))
    (r : Row) :
    setCols (cv :: s) r = setCols s (setCol cv.1 cv.2 r) := rfl

theorem setCols_eq_map (s : List (String × Value)) (r : Row)
    (hnd : (r.map Prod.fst).Nodup)
    (hsub : ∀ cv ∈ s, cv.1 ∈ r.map Prod.fst) :
    setCols s r = r.map fun p => (p.1, applyLast s p.1 p.2) := by
  induction s generalizing r with
  | nil =>
      simp only [setCols, List.foldl_nil]
      exact (List.map_id'' (fun p => rfl) r).symm
  | cons cv s ih =>
      have hc : cv.1 ∈ r.map Prod.fst := hsub cv (List.mem_cons_self _ _)
      rw [setCols_cons, setCol_eq_map cv.1 cv.2 r hnd hc]
      have hkeys : ((r.map fun p => if p.1 = cv.1 then (cv.1, cv.2) else p).map
          Prod.fst) = r.map Prod.fst := by
        rw [List.map_map]
        apply List.map_congr_left
        intro p hp
        by_cases h : p.1 = cv.1 <;> simp [h]
      rw [ih _ (by rw [hkeys]; exact hnd)
          (by intro dv hdv; rw [hkeys]; exact hsub dv (List.mem_cons_of_mem _ hdv))]
      rw [List.map_map]
      apply List.map_congr_left
      intro p hp
      by_cases h : p.1 = cv.1
      · simp only [Function.comp, if_pos h]
        have : applyLast (cv :: s) p.1 p.2 =
            applyLast s cv.1 cv.2 := by
          simp [applyLast, h]
        rw [this, h]
      · simp only [Function.comp, if_neg h]
        have : applyLast (cv :: s) p.1 p.2 = applyLast s p.1 p.2 := by
          have hne : ¬ cv.1 = p.1 := fun hh => h hh.symm
          simp [applyLast, hne]
        rw [this]

theorem setCols_idem (s : List (String × Value)) (r : Row)
    (hnd : (r.map Prod.fst).Nodup)
    (hsub : ∀ cv ∈ s, cv.1 ∈ r.map Prod.fst) :
    setCols s (setCols s r) = setCols s r := by
  have h1 := setCols_eq_map s r hnd hsub
  have hkeys : ((r.map fun p => (p.1, applyLast s p.1 p.2)).map Prod.fst) =
      r.map Prod.fst := by
    rw [List.map_map]; rfl
  have h2 := setCols_eq_map s (r.map fun p => (p.1, applyLast s p.1 p.2))
    (by rw [hkeys]; exact hnd)
    (by intro cv hcv; rw [hkeys]; exact hsub cv hcv)
  rw [h1, h2, List.map_map]
  apply List.map_congr_left
  intro p hp
  simp only [Function.comp]
  rw [applyLast_idem]

/-- Keys of a freshly built row are exactly the declared columns. -/
theorem mkRow_fst (cols : List String) (fields : List (String × Value)) :
    (mkRow cols fields).map Prod.fst = cols := by
  unfold mkRow
  rw [List.map_map]
  exact List.map_id'' (fun c => rfl) cols

theorem mkRow_lookup (cols : List String) (fields : List (String × Value))
    (c : String) (hc : c ∈ cols) :
    (mkRow cols fields).lookup c = some ((fields.lookup c).getD Value.vNull) := by
  induction cols with
  | nil => cases hc
  | cons k tl ih =>
      by_cases h : c = k
      · subst h
        simp [mkRow, List.lookup]
      · have hb : (c == k) = false := by simp [h]
        have hc2 : c ∈ tl := by
          rcases List.mem_cons.mp hc with h1 | h1
          · exact absurd h1 h
          · exact h1
        simpa [mkRow, List.lookup, hb] using ih hc2

theorem lookup_map_put {l : List (String × Table)} {n : String} {t0 : Table}
    (h : l.lookup n = some t0) (t : Table) :
    (l.map fun p => if p.1 = n then (n, t) else p).lookup n = some t := by
  induction l with
  | nil => cases h
  | cons hd tl ih =>
      obtain ⟨k1, t1⟩ := hd
      simp only [List.map_cons]
      by_cases hk : k1 = n
      · subst hk
        rw [if_pos rfl]
        have hb : (k1 == k1) = true := by simp
        simp [List.lookup, hb]
      · rw [if_neg hk]
        have hb : (n == k1) = false := by
          simp only [beq_eq_false_iff_ne]
          exact Ne.symm hk
        simp only [List.lookup, hb] at h ⊢
        exact ih h

theorem lookup_putTable {f : DBFile} {n : String} {t0 : Table}
    (h : lookupTable f n = some t0) (t : Table) :
    lookupTable (putTable f n t) n = some t := by
  unfold lookupTable at h
  unfold lookupTable putTable
  exact lookup_map_put h t

theorem putTable_putTable (f : DBFile) (n : String) (t t2 : Table) :
    putTable (putTable f n t) n t2 = putTable f n t2 := by
  unfold putTable
  simp only [List.map_map]
  congr 1
  apply List.map_congr_left
  intro p hp
  by_cases h : p.1 = n <;> simp [Function.comp, h]

theorem filter_idem {α : Type} (p : α → Bool) (l : List α) :
    (l.filter p).filter p = l.filter p := by
  rw [List.filter_filter]
  simp

theorem storePut_storePut (st : Store) (k : String) (v w : StoredVal) :
    storePut (storePut st k v) k w = storePut st k w := by
  induction st with
  | nil => simp [storePut]
  | cons hd tl ih =>
      obtain ⟨k1, v1⟩ := hd
      by_cases h : k1 = k
      · subst h; simp [storePut]
      · simp only [storePut, if_neg h]
        rw [ih]

/-! ## Frame lemmas: each user-table statement leaves the internal
tables untouched. -/

theorem stmtCreateTable_frame {f f2 : DBFile} {sch : TableSchema}
    (h : stmtCreateTable f sch = .ok f2) :
    f2.metaLocalSeq = f.metaLocalSeq ∧ f2.opsTable = f.opsTable := by
  unfold stmtCreateTable at h
  cases hl : lookupTable f sch.name with
  | some t =>
      rw [hl] at h
      cases h
      exact ⟨rfl, rfl⟩
  | none =>
      rw [hl] at h
      dsimp only at h
      by_cases hc : sch.columns = []
      · rw [if_pos hc] at h; cases h
      · rw [if_neg hc] at h
        by_cases hnd : ¬ sch.columns.Nodup
        · rw [if_pos hnd] at h; cases h
        · rw [if_neg hnd] at h
          cases hpk : sch.primaryKey with
          | none =>
              rw [hpk] at h
              cases h
              exact ⟨rfl, rfl⟩
          | some pkCols =>
              rw [hpk] at h
              cases pkCols with
              | nil => cases h
              | cons c cs =>
                  dsimp only at h
                  by_cases hall : ((c :: cs).all fun c => decide (c ∈ sch.columns)) = true
                  · rw [if_pos hall] at h
                    cases h
                    exact ⟨rfl, rfl⟩
                  · rw [if_neg hall] at h; cases h

theorem stmtInsertPlain_frame {f f2 : DBFile} {tn : String}
    {flds : List (String × Value)} (h : stmtInsertPlain f tn flds = .ok f2) :
    f2.metaLocalSeq = f.metaLocalSeq ∧ f2.opsTable = f.opsTable := by
  unfold stmtInsertPlain at h
  by_cases hw : flds = []
  · rw [if_pos hw] at h; cases h
  · rw [if_neg hw] at h
    cases hl : lookupTable f tn with
    | none => rw [hl] at h; cases h
    | some t =>
        rw [hl] at h
        dsimp only at h
        by_cases hk : ¬ keysDeclared flds t.cols = true
        · rw [if_pos hk] at h; cases h
        · rw [if_neg hk] at h
          by_cases hc : (t.rows.any fun r => pkConflict t.pk r (mkRow t.cols flds)) = true
          · rw [if_pos hc] at h; cases h
          · rw [if_neg hc] at h
            cases h
            exact ⟨rfl, rfl⟩

theorem stmtUpdate_frame {f f2 : DBFile} {tn : String}
    {sets wher : List (String × Value)} (h : stmtUpdate f tn sets wher = .ok f2) :
    f2.metaLocalSeq = f.metaLocalSeq ∧ f2.opsTable = f.opsTable := by
  unfold stmtUpdate at h
  by_cases hw : sets = [] ∨ wher = []
  · rw [if_pos hw] at h; cases h
  · rw [if_neg hw] at h
    cases hl : lookupTable f tn with
    | none => rw [hl] at h; cases h
    | some t =>
        rw [hl] at h
        dsimp only at h
        by_cases hk : ¬ (keysDeclared sets t.cols && keysDeclared wher t.cols) = true
        · rw [if_pos hk] at h; cases h
        · rw [if_neg hk] at h
          cases h
          exact ⟨rfl, rfl⟩

theorem stmtDelete_frame {f f2 : DBFile} {tn : String}
    {wher : List (String × Value)} (h : stmtDelete f tn wher = .ok f2) :
    f2.metaLocalSeq = f.metaLocalSeq ∧ f2.opsTable = f.opsTable := by
  unfold stmtDelete at h
  by_cases hw : wher = []
  · rw [if_pos hw] at h; cases h
  · rw [if_neg hw] at h
    cases hl : lookupTable f tn with
    | none => rw [hl] at h; cases h
    | some t =>
        rw [hl] at h
        dsimp only at h
        by_cases hk : ¬ keysDeclared wher t.cols = true
        · rw [if_pos hk] at h; cases h
        · rw [if_neg hk] at h
          cases h
          exact ⟨rfl, rfl⟩

/-- A second identical DELETE against the produced content is accepted
and changes nothing. -/
theorem stmtDelete_ok_idem {f f2 : DBFile} {n : String}
    {w : List (String × Value)} (h : stmtDelete f n w = .ok f2) :
    stmtDelete f2 n w = .ok f2 := by
  unfold stmtDelete at h ⊢
  by_cases hw : w = []
  · rw [if_pos hw] at h; cases h
  · rw [if_neg hw] at h ⊢
    cases hl : lookupTable f n with
    | none => rw [hl] at h; cases h
    | some t =>
        rw [hl] at h
        dsimp only at h
        by_cases hk : ¬ keysDeclared w t.cols = true
        · rw [if_pos hk] at h; cases h
        · rw [if_neg hk] at h
          rw [Except.ok.injEq] at h
          subst h
          rw [lookup_putTable hl]
          dsimp only
          rw [if_neg hk, filter_idem, putTable_putTable]

/-- A second identical UPDATE against the produced content is accepted
and changes nothing, on a wellformed file. -/
theorem stmtUpdate_ok_idem {f f2 : DBFile} {n : String}
    {sets wher : List (String × Value)} (hwf : WFFile f)
    (h : stmtUpdate f n sets wher = .ok f2) :
    stmtUpdate f2 n sets wher = .ok f2 := by
  unfold stmtUpdate at h ⊢
  by_cases hw : sets = [] ∨ wher = []
  · rw [if_pos hw] at h; cases h
  · rw [if_neg hw] at h ⊢
    cases hl : lookupTable f n with
    | none => rw [hl] at h; cases h
    | some t =>
        rw [hl] at h
        dsimp only at h
        by_cases hk : ¬ (keysDeclared sets t.cols && keysDeclared wher t.cols) = true
        · rw [if_pos hk] at h; cases h
        · rw [if_neg hk] at h
          rw [Except.ok.injEq] at h
          subst h
          rw [lookup_putTable hl]
          dsimp only
          rw [if_neg hk]
          have hwft : WFTable t := hwf (n, t) (lookup_mem hl)
          obtain ⟨hks, -⟩ : keysDeclared sets t.cols = true ∧
              keysDeclared wher t.cols = true := by
            simpa using Decidable.of_not_not hk
          have hF : ∀ r ∈ t.rows,
              (fun r => if rowMatches wher r then setCols sets r else r)
                ((fun r => if rowMatches wher r then setCols sets r else r) r) =
              (fun r => if rowMatches wher r then setCols sets r else r) r := by
            intro r hr
            have hnd : (r.map Prod.fst).Nodup := by
              rw [hwft.2 r hr]; exact hwft.1
            have hsub : ∀ cv ∈ sets, cv.1 ∈ r.map Prod.fst := by
              intro cv hcv
              rw [hwft.2 r hr]
              have := List.all_eq_true.mp hks cv hcv
              exact of_decide_eq_true this
            dsimp only
            by_cases hm : rowMatches wher r = true
            · rw [if_pos hm]
              by_cases hm2 : rowMatches wher (setCols sets r) = true
              · rw [if_pos hm2]
                exact setCols_idem sets r hnd hsub
              · rw [if_neg hm2]
            · rw [if_neg hm, if_neg hm]
          have hmap : (t.rows.map fun r =>
                if rowMatches wher r then setCols sets r else r).map
                (fun r => if rowMatches wher r then setCols sets r else r) =
              t.rows.map fun r => if rowMatches wher r then setCols sets r else r := by
            rw [List.map_map]
            exact List.map_congr_left fun r hr => hF r hr
          rw [hmap, putTable_putTable]

/-- A second identical INSERT OR REPLACE against the produced content is
accepted and changes nothing, when the target table has a primary key
for which the inserted record supplies non-null values. -/
theorem stmtInsertOrReplace_ok_idem {f f2 : DBFile} {n : String}
    {fields : List (String × Value)}
    (hpk : ∀ t, lookupTable f n = some t → ∃ pkCols, t.pk = some pkCols ∧
        ∀ c ∈ pkCols, ∃ v, fields.lookup c = some v ∧ v ≠ Value.vNull)
    (h : stmtInsertOrReplace f n fields = .ok f2) :
    stmtInsertOrReplace f2 n fields = .ok f2 := by
  unfold stmtInsertOrReplace at h ⊢
  by_cases hw : fields = []
  · rw [if_pos hw] at h; cases h
  · rw [if_neg hw] at h ⊢
    cases hl : lookupTable f n with
    | none => rw [hl] at h; cases h
    | some t =>
        rw [hl] at h
        dsimp only at h
        by_cases hk : ¬ keysDeclared fields t.cols = true
        · rw [if_pos hk] at h; cases h
        · rw [if_neg hk] at h
          rw [Except.ok.injEq] at h
          subst h
          rw [lookup_putTable hl]
          dsimp only
          rw [if_neg hk]
          obtain ⟨pkCols, hpkt, hvals⟩ := hpk t hl
          have hself : pkConflict t.pk (mkRow t.cols fields)
              (mkRow t.cols fields) = true := by
            rw [hpkt]
            unfold pkConflict
            rw [List.all_eq_true]
            intro c hc
            obtain ⟨v, hv, hvn⟩ := hvals c hc
            have hcin : c ∈ t.cols := by
              have hmem := lookup_mem hv
              have := List.all_eq_true.mp (Decidable.of_not_not hk) (c, v) hmem
              exact of_decide_eq_true this
            rw [mkRow_lookup t.cols fields c hcin, hv]
            simp [hvn]
          have hfl : List.filter
              (fun r => decide ¬ pkConflict t.pk r (mkRow t.cols fields) = true)
              [mkRow t.cols fields] = [] := by
            simp [List.filter, hself]
          rw [List.filter_append, hfl, List.append_nil, filter_idem,
            putTable_putTable]

/-! ## The lifetime invariant (claim C7): the counter equals the number
of operations produced so far, the produced `localSeq` values are
`1, 2, …`, the meta row persists the counter, every ops-table row's id
stays below the counter, and the blob mirrors the live content. -/

def LifeInv (ls : LifeState) : Prop :=
  ∃ e, ls.s.db = some e ∧
    ls.s.localSeqCounter = ls.produced.length ∧
    ls.produced = List.range' 1 ls.produced.length ∧
    e.file.metaLocalSeq =
      (if ls.produced.length = 0 then none else some ls.produced.length) ∧
    (∀ row ∈ e.file.opsTable, row.id.localSeq ≤ ls.produced.length) ∧
    (storeGet ls.store (blobKey ls.s.dbName) = some (.blob e.file) ∨
      (storeGet ls.store (blobKey ls.s.dbName) = none ∧
        ls.produced.length = 0))

theorem newlyProduced_nil {old new : DBState}
    (h : new.pendingOps = old.pendingOps) : newlyProduced old new = [] := by
  simp [newlyProduced, h]

theorem newlyProduced_push {old new : DBState} (op : PendingOperation)
    (h : new.pendingOps = old.pendingOps ++ [op]) :
    newlyProduced old new = [op.localSeq] := by
  unfold newlyProduced
  rw [h, List.map_append, List.drop_left' (List.length_map _ _)]
  rfl

theorem range'_concat_one (len : Nat) :
    List.range' 1 len ++ [len + 1] = List.range' 1 (len + 1) := by
  have h := @List.range'_concat 1 1 len
  have h2 : 1 + 1 * len = len + 1 := by omega
  rw [h2] at h
  exact h.symm

/-- Exact behaviour of `createOperation` when the fresh id cannot
collide with any persisted ops row. -/
theorem createOperation_spec (s : DBState) (store : Store) (nowMs : Nat)
    (tb ty : String) (dt : OpData) (e : EngineDB) (he : s.db = some e)
    (hbound : ∀ row ∈ e.file.opsTable, row.id.localSeq ≤ s.localSeqCounter) :
    Database.createOperation s store nowMs tb ty dt =
      (.ok { id := { client := s.clientId,
                     localSeq := s.localSeqCounter + 1, ts := nowMs },
             table := tb, type := ty, data := dt, clientId := s.clientId,
             localSeq := s.localSeqCounter + 1 },
       { s with localSeqCounter := s.localSeqCounter + 1,
                pendingOps := s.pendingOps ++
                  [{ id := { client := s.clientId,
                             localSeq := s.localSeqCounter + 1, ts := nowMs },
                     table := tb, type := ty, data := dt,
                     clientId := s.clientId,
                     localSeq := s.localSeqCounter + 1 }],
                db := some { e with file :=
                  { e.file with
                    opsTable := e.file.opsTable ++
                      [{ id := { client := s.clientId,
                                 localSeq := s.localSeqCounter + 1,
                                 ts := nowMs },
                         seq := none,
                         localSeq := some (s.localSeqCounter + 1),
                         tableName := tb, opType := ty, data := dt,
                         clientId := s.clientId, confirmed := false }],
                    metaLocalSeq := some (s.localSeqCounter + 1) } } },
       storePut store (blobKey s.dbName)
         (.blob { e.file with
                  opsTable := e.file.opsTable ++
                    [{ id := { client := s.clientId,
                               localSeq := s.localSeqCounter + 1,
                               ts := nowMs },
                       seq := none, localSeq := some (s.localSeqCounter + 1),
                       tableName := tb, opType := ty, data := dt,
                       clientId := s.clientId, confirmed := false }],
                  metaLocalSeq := some (s.localSeqCounter + 1) })) := by
  unfold Database.createOperation
  rw [he]
  dsimp only
  have hany : (e.file.opsTable.any fun row => decide (row.id =
      { client := s.clientId, localSeq := s.localSeqCounter + 1,
        ts := nowMs })) = false := by
    rw [List.any_eq_false]
    intro row hrow hdec
    have hid := of_decide_eq_true hdec
    have hle := hbound row hrow
    rw [hid] at hle
    dsimp only at hle
    omega
  rw [hany]
  rw [if_neg Bool.false_ne_true]
  unfold Database.persist
  dsimp only

theorem insert_inv (ls : LifeState) (h : LifeInv ls) (nowMs : Nat)
    (tb : String) (d : List (String × Value)) :
    LifeInv (lifeStep ls (.ins nowMs tb d)) := by
  obtain ⟨e, he, hctr, hprod, hmeta, hbound, hstore⟩ := h
  simp only [lifeStep]
  unfold Database.insert
  rw [he]
  dsimp only
  cases hs : stmtInsertPlain e.file tb d with
  | error m =>
      dsimp only [runStmt]
      rw [newlyProduced_nil rfl, List.append_nil]
      exact ⟨e, he, hctr, hprod, hmeta, hbound, hstore⟩
  | ok f2 =>
      obtain ⟨hm2, ho2⟩ := stmtInsertPlain_frame hs
      dsimp only [runStmt]
      rw [createOperation_spec { ls.s with db := some { e with file := f2 } }
        ls.store nowMs tb "INSERT" { fields := d, whereFields := none }
        { e with file := f2 } rfl
        (by
          intro row hrow
          dsimp only at hrow ⊢
          rw [ho2] at hrow
          rw [hctr]
          exact hbound row hrow)]
      dsimp only
      rw [newlyProduced_push _ rfl]
      unfold Database.persist
      dsimp only
      rw [storePut_storePut]
      refine ⟨_, rfl, ?_, ?_, ?_, ?_, Or.inl ?_⟩
      · dsimp only
        rw [List.length_append, hctr]
        rfl
      · dsimp only
        rw [List.length_append]
        simp only [List.length_cons, List.length_nil, Nat.zero_add]
        rw [hctr, ← range'_concat_one, ← hprod]
      · dsimp only
        rw [List.length_append, hctr]
        simp
      · intro row hrow
        dsimp only at hrow
        rw [ho2] at hrow
        rw [List.length_append]
        simp only [List.length_cons, List.length_nil, Nat.zero_add]
        rcases List.mem_append.mp hrow with hold | hnew
        · have := hbound row hold
          omega
        · obtain rfl := List.mem_singleton.mp hnew
          dsimp only
          omega
      · exact storeGet_storePut_self _ _ _

theorem update_inv (ls : LifeState) (h : LifeInv ls) (nowMs : Nat)
    (tb : String) (d w : List (String × Value)) :
    LifeInv (lifeStep ls (.upd nowMs tb d w)) := by
  obtain ⟨e, he, hctr, hprod, hmeta, hbound, hstore⟩ := h
  simp only [lifeStep]
  unfold Database.update
  rw [he]
  dsimp only
  cases hs : stmtUpdate e.file tb d w with
  | error m =>
      dsimp only [runStmt]
      rw [newlyProduced_nil rfl, List.append_nil]
      exact ⟨e, he, hctr, hprod, hmeta, hbound, hstore⟩
  | ok f2 =>
      obtain ⟨hm2, ho2⟩ := stmtUpdate_frame hs
      dsimp only [runStmt]
      rw [createOperation_spec { ls.s with db := some { e with file := f2 } }
        ls.store nowMs tb "UPDATE" { fields := d, whereFields := some w }
        { e with file := f2 } rfl
        (by
          intro row hrow
          dsimp only at hrow ⊢
          rw [ho2] at hrow
          rw [hctr]
          exact hbound row hrow)]
      dsimp only
      rw [newlyProduced_push _ rfl]
      unfold Database.persist
      dsimp only
      rw [storePut_storePut]
      refine ⟨_, rfl, ?_, ?_, ?_, ?_, Or.inl ?_⟩
      · dsimp only
        rw [List.length_append, hctr]
        rfl
      · dsimp only
        rw [List.length_append]
        simp only [List.length_cons, List.length_nil, Nat.zero_add]
        rw [hctr, ← range'_concat_one, ← hprod]
      · dsimp only
        rw [List.length_append, hctr]
        simp
      · intro row hrow
        dsimp only at hrow
        rw [ho2] at hrow
        rw [List.length_append]
        simp only [List.length_cons, List.length_nil, Nat.zero_add]
        rcases List.mem_append.mp hrow with hold | hnew
        · have := hbound row hold
          omega
        · obtain rfl := List.mem_singleton.mp hnew
          dsimp only
          omega
      · exact storeGet_storePut_self _ _ _

theorem delete_inv (ls : LifeState) (h : LifeInv ls) (nowMs : Nat)
    (tb : String) (w : List (String × Value)) :
    LifeInv (lifeStep ls (.del nowMs tb w)) := by
  obtain ⟨e, he, hctr, hprod, hmeta, hbound, hstore⟩ := h
  simp only [lifeStep]
  unfold Database.delete
  rw [he]
  dsimp only
  cases hs : stmtDelete e.file tb w with
  | error m =>
      dsimp only [runStmt]
      rw [newlyProduced_nil rfl, List.append_nil]
      exact ⟨e, he, hctr, hprod, hmeta, hbound, hstore⟩
  | ok f2 =>
      obtain ⟨hm2, ho2⟩ := stmtDelete_frame hs
      dsimp only [runStmt]
      rw [createOperation_spec { ls.s with db := some { e with file := f2 } }
        ls.store nowMs tb "DELETE" { fields := [], whereFields := some w }
        { e with file := f2 } rfl
        (by
          intro row hrow
          dsimp only at hrow ⊢
          rw [ho2] at hrow
          rw [hctr]
          exact hbound row hrow)]
      dsimp only
      rw [newlyProduced_push _ rfl]
      unfold Database.persist
      dsimp only
      rw [storePut_storePut]
      refine ⟨_, rfl, ?_, ?_, ?_, ?_, Or.inl ?_⟩
      · dsimp only
        rw [List.length_append, hctr]
        rfl
      · dsimp only
        rw [List.length_append]
        simp only [List.length_cons, List.length_nil, Nat.zero_add]
        rw [hctr, ← range'_concat_one, ← hprod]
      · dsimp only
        rw [List.length_append, hctr]
        simp
      · intro row hrow
        dsimp only at hrow
        rw [ho2] at hrow
        rw [List.length_append]
        simp only [List.length_cons, List.length_nil, Nat.zero_add]
        rcases List.mem_append.mp hrow with hold | hnew
        · have := hbound row hold
          omega
        · obtain rfl := List.mem_singleton.mp hnew
          dsimp only
          omega
      · exact storeGet_storePut_self _ _ _

theorem createTable_inv (ls : LifeState) (h : LifeInv ls)
    (sch : TableSchema) : LifeInv (lifeStep ls (.mkTable sch)) := by
  obtain ⟨e, he, hctr, hprod, hmeta, hbound, hstore⟩ := h
  simp only [lifeStep]
  unfold Database.createTable
  rw [he]
  dsimp only
  cases hs : stmtCreateTable e.file sch with
  | error m =>
      dsimp only [runStmt]
      exact ⟨e, he, hctr, hprod, hmeta, hbound, hstore⟩
  | ok f2 =>
      obtain ⟨hm2, ho2⟩ := stmtCreateTable_frame hs
      dsimp only [runStmt]
      unfold Database.persist
      dsimp only
      refine ⟨{ e with file := f2 }, rfl, hctr, hprod, ?_, ?_, Or.inl ?_⟩
      · dsimp only
        rw [hm2]
        exact hmeta
      · intro row hrow
        dsimp only at hrow
        rw [ho2] at hrow
        exact hbound row hrow
      · exact storeGet_storePut_self _ _ _

theorem reopen_inv (ls : LifeState) (h : LifeInv ls) :
    LifeInv (lifeStep ls .reopen) := by
  obtain ⟨e, he, hctr, hprod, hmeta, hbound, hstore⟩ := h
  simp only [lifeStep]
  unfold Database.close
  rw [he]
  dsimp only
  unfold Database.persist
  rw [he]
  dsimp only
  unfold Database.init Database.mkNew
  dsimp only
  rw [storeGet_storePut_self]
  dsimp only
  refine ⟨{ file := e.file, savepoints := [] }, rfl, ?_, hprod, hmeta, hbound,
    Or.inl ?_⟩
  · dsimp only
    rw [hmeta]
    cases hl : ls.produced.length with
    | zero => simp
    | succ n => simp
  · dsimp only
    exact storeGet_storePut_self _ _ _

theorem lifeStep_inv (ls : LifeState) (ev : LEvent) (h : LifeInv ls) :
    LifeInv (lifeStep ls ev) := by
  cases ev with
  | mkTable sch => exact createTable_inv ls h sch
  | ins nowMs tb d => exact insert_inv ls h nowMs tb d
  | upd nowMs tb d w => exact update_inv ls h nowMs tb d w
  | del nowMs tb w => exact delete_inv ls h nowMs tb w
  | reopen => exact reopen_inv ls h

theorem foldl_lifeStep_inv (evs : List LEvent) :
    ∀ ls : LifeState, LifeInv ls → LifeInv (evs.foldl lifeStep ls) := by
  induction evs with
  | nil => intro ls h; exact h
  | cons ev evs ih =>
      intro ls h
      exact ih _ (lifeStep_inv ls ev h)

theorem runLifetime_inv (dbName cid : String) (evs : List LEvent) :
    LifeInv (runLifetime dbName cid evs) := by
  unfold runLifetime
  apply foldl_lifeStep_inv
  refine ⟨{ file := emptyFile, savepoints := [] }, ?_, rfl, rfl, rfl,
    ?_, Or.inr ⟨rfl, rfl⟩⟩
  · unfold Database.init Database.mkNew
    rfl
  · intro row hrow
    simp [emptyFile] at hrow

/-! # Claim theorems -/

/-- Claim C1 (evaluation at the failing input): in scenario S1 (create
table `t`, insert one row offline, close, reopen from the persisted
blob), the reopened instance answers `SELECT * FROM t` with the inserted
row and restores `localSeqCounter = 1`, but its pending queue is empty —
`pendingCount` is `0`, not the `1` the claim states, because `init`
never rebuilds the queue from the persisted unconfirmed rows (which are
still present in the blob, with `confirmed = 0`). -/
theorem c1_s1_reload_loses_pending_queue :
    Database.selectAllRows c1Run "t" =
      some [[("id", Value.vText "a"), ("v", Value.vInt 1)]] ∧
    c1Run.localSeqCounter = 1 ∧
    Database.getPendingCount c1Run = 0 ∧
    (c1Run.db.map fun e =>
      e.file.opsTable.map fun row => (row.id, row.confirmed)) =
      some [({ client := "cidA", localSeq := 1, ts := 5 }, false)] := by
  decide

/-- Claim C2 (evaluation at the failing input): an in-order remote op
(`DELETE WHERE w=1` at seq 2) arrives while one local UPDATE is pending.
The recorded effect order shows the code first applies the remote op,
releases the old checkpoint and re-establishes the checkpoint at the new
`confirmedSeq` over the *optimistic* state, and only then runs
rollback-replay — which rolls back to that just-created checkpoint (not
the state at the previous `confirmedSeq`) and applies the remote op a
second time.  Consequently the engine ends with `t` empty, whereas the
procedure the claim describes (modelled by `specRollbackReplay` from the
checkpointed state at the previous `confirmedSeq`) ends with the row
`{id:'x', w:1}`. -/
theorem c2_rollback_replay_order_diverges :
    c2Final.evs =
      [Ev.applyOp { client := "B", localSeq := 1, ts := 0 },
       Ev.savepoint 1,
       Ev.applyOp { client := "B", localSeq := 2, ts := 0 },
       Ev.release 1 true,
       Ev.savepoint 2,
       Ev.rollbackTo 2,
       Ev.applyOp { client := "B", localSeq := 2, ts := 0 },
       Ev.applyOp { client := "A", localSeq := 1, ts := 9 },
       Ev.release 2 true,
       Ev.savepoint 2] ∧
    Database.selectAllRows c2Final "t" = some [] ∧
    (lookupTable
        (specRollbackReplay c2Checkpoint opB2del c2AfterUpd.1.pendingOps)
        "t").map (·.rows) =
      some [[("id", Value.vText "x"), ("w", Value.vInt 1)]] := by
  decide

/-- Claim C3 (counterexample): a gap-ahead arrival (`seq 3` when
`expected = 2`) delivered while the pending queue is non-empty does
change `savepointSeq`: it was `1` before the delivery and is `3` after,
because the follow-on rollback-replay re-establishes the checkpoint at
the new `confirmedSeq`. -/
theorem c3_gap_with_pending_moves_checkpoint :
    c3Before.1.savepointSeq = 1 ∧ c3Final.savepointSeq = 3 := by
  decide

/-- Claim C4 (counterexample): the envelope the sync manager sends for a
local operation has `type = 'sumql_op'`, not the literal `"op"` the
claim states; and a received envelope whose type *is* `"op"` is ignored
(converted to `null`), the opposite of what the claim implies. -/
theorem c4_wire_literal_is_sumql_op :
    (SyncManager.handleLocalOperation true true pendX).map (·.type) =
      some "sumql_op" ∧
    "sumql_op" ≠ "op" ∧
    SyncManager.inputToOperation
      { id := "i1", clientId := "A", type := "input",
        data := some { type := "op", operation := pendX }, seq := 1 } =
      none := by
  decide

/-- Claim C6 (counterexample): applying the same confirmed INSERT twice
is *not* idempotent on a table without a PRIMARY KEY — `INSERT OR
REPLACE` has no uniqueness conflict to replace on, so the second apply
appends a duplicate row. -/
theorem c6_insert_without_pk_not_idempotent :
    (applyOpFile (applyOpFile uNoPk opU).1 opU).1 ≠ (applyOpFile uNoPk opU).1 := by
  decide

/-- Claim C6 as amended: applying the same operation twice through the
apply path leaves the engine content as after the first apply, for every
wellformed file — *provided* that an INSERT targets a table declaring a
primary key and supplies a non-null value for each primary-key column
(otherwise `INSERT OR REPLACE` appends a duplicate row, see the
counterexample).  UPDATE and DELETE, and operations of unknown type,
are unconditionally idempotent. -/
theorem c6_amended_apply_idempotent (f : DBFile) (op : Operation)
    (hwf : WFFile f)
    (hpk : op.type = "INSERT" → ∀ t, lookupTable f op.table = some t →
        ∃ pkCols, t.pk = some pkCols ∧ ∀ c ∈ pkCols,
          ∃ v, op.data.fields.lookup c = some v ∧ v ≠ Value.vNull) :
    (applyOpFile (applyOpFile f op).1 op).1 = (applyOpFile f op).1 := by
  by_cases hI : op.type = "INSERT"
  · cases hr : stmtInsertOrReplace f op.table op.data.fields with
    | error m =>
        have h1 : applyOpFile f op = (f, ["Failed to apply INSERT: " ++ m]) := by
          unfold applyOpFile; rw [hI, hr]; rfl
        rw [h1]; dsimp only; rw [h1]
    | ok f2 =>
        have h1 : applyOpFile f op = (f2, []) := by
          unfold applyOpFile; rw [hI, hr]; rfl
        have hidem := stmtInsertOrReplace_ok_idem (hpk hI) hr
        have h2 : applyOpFile f2 op = (f2, []) := by
          unfold applyOpFile; rw [hI, hidem]; rfl
        rw [h1]; dsimp only; rw [h2]
  · by_cases hU : op.type = "UPDATE"
    · cases hr : stmtUpdate f op.table op.data.fields
          (op.data.whereFields.getD []) with
      | error m =>
          have h1 : applyOpFile f op = (f, ["Failed to apply UPDATE: " ++ m]) := by
            unfold applyOpFile; rw [hU, hr]; rfl
          rw [h1]; dsimp only; rw [h1]
      | ok f2 =>
          have h1 : applyOpFile f op = (f2, []) := by
            unfold applyOpFile; rw [hU, hr]; rfl
          have hidem := stmtUpdate_ok_idem hwf hr
          have h2 : applyOpFile f2 op = (f2, []) := by
            unfold applyOpFile; rw [hU, hidem]; rfl
          rw [h1]; dsimp only; rw [h2]
    · by_cases hD : op.type = "DELETE"
      · cases hr : stmtDelete f op.table (op.data.whereFields.getD []) with
        | error m =>
            have h1 : applyOpFile f op = (f, ["Failed to apply DELETE: " ++ m]) := by
              unfold applyOpFile; rw [hD, hr]; rfl
            rw [h1]; dsimp only; rw [h1]
        | ok f2 =>
            have h1 : applyOpFile f op = (f2, []) := by
              unfold applyOpFile; rw [hD, hr]; rfl
            have hidem := stmtDelete_ok_idem hr
            have h2 : applyOpFile f2 op = (f2, []) := by
              unfold applyOpFile; rw [hD, hidem]; rfl
            rw [h1]; dsimp only; rw [h2]
      · have h1 : applyOpFile f op = (f, []) := by
          unfold applyOpFile; split <;> simp_all
        rw [h1]; dsimp only; rw [h1]

/-- Witness for the amended C6: re-applying the remote INSERT `opB1` to
the table `t(id PK, w)` that already contains its row changes nothing. -/
theorem c6_amended_witness :
    (applyOpFile (applyOpFile wPkFile opB1).1 opB1).1 =
      (applyOpFile wPkFile opB1).1 :=
  c6_amended_apply_idempotent wPkFile opB1
    (by
      intro p hp
      have hp2 := List.mem_singleton.mp hp
      subst hp2
      exact ⟨by decide, by intro r hr; simp at hr⟩)
    (by
      intro _ t ht
      have heval : lookupTable wPkFile opB1.table =
          some { cols := ["id", "w"], pk := some ["id"], rows := [] } := rfl
      rw [heval] at ht
      injection ht with h2
      subst h2
      refine ⟨["id"], rfl, ?_⟩
      intro c hc
      have hc2 := List.mem_singleton.mp hc
      subst hc2
      exact ⟨Value.vText "x", rfl, by decide⟩)

/-- Claim C9 (counterexample): the client-id key is not namespaced by
the database name — `generateClientId` takes no database name at all.
A second instance (with any other `dbName`) reads the id the first
instance persisted: after instance one stores `client_7_r`, instance
two's `generateClientId` returns that same id even with different
entropy, while the blob keys for two database names do differ. -/
theorem c9_client_id_key_not_namespaced :
    (ModuSQL.generateClientId
        ((ModuSQL.generateClientId [] 7 "r").2) 9 "q").1 = "client_7_r" ∧
    blobKey "a" ≠ blobKey "b" := by
  decide

/-- Claim C10: `applyOp` dispatches on `op.type` with no default branch,
so an operation whose `type` is none of INSERT / UPDATE / DELETE leaves
the engine content unchanged (and logs nothing). -/
theorem c10_unknown_type_apply_is_noop (f : DBFile) (op : Operation)
    (h1 : op.type ≠ "INSERT") (h2 : op.type ≠ "UPDATE")
    (h3 : op.type ≠ "DELETE") :
    applyOpFile f op = (f, []) := by
  unfold applyOpFile
  split <;> simp_all

/-- Witness for C10 at a concrete unknown-typed operation. -/
theorem c10_witness :
    applyOpFile uNoPk opUpsert = (uNoPk, []) :=
  c10_unknown_type_apply_is_noop uNoPk opUpsert
    (by decide) (by decide) (by decide)

/-- Claim C7: over any lifetime of local mutations and close/reopen
cycles starting from a fresh host, the `localSeq` values produced are
exactly `1, 2, 3, …` (hence strictly increasing from 1, across reopens),
the counter equals the number of operations produced, and the counter is
persisted in the `local_seq` metadata row (read back by `init`) whenever
at least one mutation has happened. -/
theorem c7_localseq_strictly_increasing_and_persisted (dbName cid : String)
    (evs : List LEvent) :
    (runLifetime dbName cid evs).produced =
      List.range' 1 (runLifetime dbName cid evs).produced.length ∧
    (runLifetime dbName cid evs).s.localSeqCounter =
      (runLifetime dbName cid evs).produced.length ∧
    dbMeta (runLifetime dbName cid evs).s =
      (if (runLifetime dbName cid evs).produced.length = 0 then none
       else some (runLifetime dbName cid evs).produced.length) := by
  obtain ⟨e, he, hctr, hprod, hmeta, hbound, hstore⟩ :=
    runLifetime_inv dbName cid evs
  refine ⟨hprod, hctr, ?_⟩
  unfold dbMeta
  rw [he]
  exact hmeta

/-- Claim C5: a confirmed operation delivered with
`op.seq ≤ confirmedSeq` is dropped by the early return with no state
change whatsoever — the whole `Database` state (engine content, pending
queue, counters, confirmed log, internal ops records) and the blob
store are returned exactly as they were. -/
theorem c5_duplicate_delivery_is_noop (s : DBState) (store : Store)
    (op : Operation) (h1 : s.db.isSome) (h2 : op.seq ≤ s.confirmedSeq) :
    Database.applyOperation s store op = (Except.ok (), s, store) := by
  obtain ⟨e, he⟩ := Option.isSome_iff_exists.mp h1
  have hne : ¬ op.seq = s.confirmedSeq + 1 := by omega
  have hngt : ¬ op.seq > s.confirmedSeq + 1 := by omega
  unfold Database.applyOperation
  rw [he]
  simp only [if_neg hne, if_neg hngt, if_pos h2]

/-- Witness for C5: the already-confirmed `opB1` (seq 1) redelivered to
the state whose `confirmedSeq` is already 1. -/
theorem c5_witness :
    Database.applyOperation c2AfterOp1.1 c2AfterOp1.2 opB1 =
      (Except.ok (), c2AfterOp1.1, c2AfterOp1.2) :=
  c5_duplicate_delivery_is_noop c2AfterOp1.1 c2AfterOp1.2 opB1
    (by decide) (by decide)

/-- Claim C8: failures of the SQL mutations taken by the apply path are
caught and logged and do not propagate.  Conjuncts: (1) on any
initialized state the reconciler transition returns normally for every
operation; (2)–(3) a failing INSERT / UPDATE statement leaves the
engine content unchanged and produces exactly the console warning, so
the surrounding transition continues. -/
theorem c8_reconciler_never_throws :
    (∀ (s : DBState) (store : Store) (op : Operation), s.db.isSome →
        (Database.applyOperation s store op).1 = Except.ok ()) ∧
    (∀ (f : DBFile) (op : Operation) (m : String), op.type = "INSERT" →
        stmtInsertOrReplace f op.table op.data.fields = .error m →
        applyOpFile f op = (f, ["Failed to apply INSERT: " ++ m])) ∧
    (∀ (f : DBFile) (op : Operation) (m : String), op.type = "UPDATE" →
        stmtUpdate f op.table op.data.fields
          (op.data.whereFields.getD []) = .error m →
        applyOpFile f op = (f, ["Failed to apply UPDATE: " ++ m])) := by
  refine ⟨?_, ?_, ?_⟩
  · intro s store op h1
    obtain ⟨e, he⟩ := Option.isSome_iff_exists.mp h1
    unfold Database.applyOperation
    rw [he]
    dsimp only
    split <;> rfl
  · intro f op m hty hr
    unfold applyOpFile
    rw [hty, hr]
    rfl
  · intro f op m hty hr
    unfold applyOpFile
    rw [hty, hr]
    rfl

/-- Witness for C8: an in-order remote INSERT into a table this client
never created still yields a normal return. -/
theorem c8_witness :
    (Database.applyOperation c2AfterOp1.1 c2AfterOp1.2 opMissingTable).1 =
      Except.ok () :=
  c8_reconciler_never_throws.1 c2AfterOp1.1 c2AfterOp1.2 opMissingTable
    (by decide)

/-- Claim C3 as amended: a gap-ahead arrival leaves `savepointSeq`
unchanged when the pending queue is empty or the arriving operation is
itself a queued local one; with a non-empty queue and a remote
operation, the follow-on rollback-replay re-establishes the checkpoint
(see the counterexample), so the claim's "regardless of whether the
pending queue is empty or not" does not hold. -/
theorem c3_amended_gap_checkpoint_unchanged (s : DBState) (store : Store)
    (op : Operation) (h1 : s.db.isSome) (h2 : op.seq > s.confirmedSeq + 1)
    (h3 : s.pendingOps = [] ∨ ∃ p ∈ s.pendingOps, p.id = op.id) :
    ((Database.applyOperation s store op).2.1).savepointSeq =
      s.savepointSeq := by
  obtain ⟨e, he⟩ := Option.isSome_iff_exists.mp h1
  have hne : ¬ op.seq = s.confirmedSeq + 1 := by omega
  unfold Database.applyOperation
  rw [he]
  simp only [if_neg hne, if_pos h2]
  rcases h3 with hpe | ⟨p, hp, hid⟩
  · have hfi : (List.findIdx? (fun p => decide (p.id = op.id)) s.pendingOps) = none := by
      rw [hpe]; rfl
    simp [hfi, hpe, runApplyOp_pendingOps, runApplyOp_savepointSeq,
      opsWriteConfirmed_savepointSeq]
  · have hfi : (List.findIdx? (fun p => decide (p.id = op.id)) s.pendingOps).isSome = true := by
      rw [List.findIdx?_isSome]
      exact List.any_eq_true.mpr ⟨p, hp, by simp [hid]⟩
    simp [hfi, opsWriteConfirmed_savepointSeq]

/-- Witness for the amended C3: the gap-ahead `opB3` (seq 3, expected 2)
delivered to the checkpointed state with an *empty* pending queue
leaves `savepointSeq` at 1. -/
theorem c3_amended_witness :
    ((Database.applyOperation c2AfterOp1.1 c2AfterOp1.2 opB3).2.1).savepointSeq =
      c2AfterOp1.1.savepointSeq :=
  c3_amended_gap_checkpoint_unchanged c2AfterOp1.1 c2AfterOp1.2 opB3
    (by decide) (by decide) (Or.inl (by decide))

/-- Claim C4 as amended: the wire literal is `'sumql_op'` (not `"op"`).
Every envelope the sync manager sends — whether for a fresh local
operation or during a pending-queue flush — carries
`type = 'sumql_op'`, and a received input whose payload type differs
from `'sumql_op'` (or that has no payload) is ignored: nothing is
applied to the engine and no callback fires. -/
theorem c4_amended_wire_type :
    (∀ (conn onl : Bool) (op : PendingOperation) (env : Envelope),
        SyncManager.handleLocalOperation conn onl op = some env →
        env.type = "sumql_op") ∧
    (∀ (conn onl : Bool) (pend : List PendingOperation) (env : Envelope),
        env ∈ SyncManager.flushPendingOps conn onl pend →
        env.type = "sumql_op") ∧
    (∀ (s : DBState) (store : Store) (input : NetworkInput),
        (∀ d, input.data = some d → d.type ≠ "sumql_op") →
        SyncManager.onInputStep s store input = (s, store, [])) := by
  refine ⟨?_, ?_, ?_⟩
  · intro conn onl op env h
    unfold SyncManager.handleLocalOperation at h
    split at h
    · simp only [Option.some.injEq] at h
      subst h; rfl
    · simp at h
  · intro conn onl pend env h
    unfold SyncManager.flushPendingOps at h
    split at h
    · obtain ⟨op, hop, rfl⟩ := List.mem_map.mp h
      rfl
    · simp at h
  · intro s store input h
    cases hd : input.data with
    | none => simp [SyncManager.onInputStep, SyncManager.inputToOperation, hd]
    | some d =>
        have hne := h d hd
        simp [SyncManager.onInputStep, SyncManager.inputToOperation, hd, hne]

/-- Witness for the amended C4: a concrete sent envelope has type
`'sumql_op'`, and a concrete received envelope typed `"op"` is ignored
without touching state or firing a callback. -/
theorem c4_amended_witness :
    ({ type := "sumql_op", operation := pendX } : Envelope).type =
      "sumql_op" ∧
    SyncManager.onInputStep (Database.mkNew "app" "A") []
      { id := "i1", clientId := "A", type := "input",
        data := some { type := "op", operation := pendX }, seq := 1 } =
      (Database.mkNew "app" "A", [], []) :=
  ⟨c4_amended_wire_type.1 true true pendX _ (by decide),
   c4_amended_wire_type.2.2 _ _ _
     (by intro d hd; injection hd with h2; subst h2; decide)⟩

/-- Claim C9 as amended: the serialized-blob key is namespaced by the
database name (`modusql_<dbName>`, injective in the name), so two
instances with different `dbName` never touch each other's blob; the
client id, however, is stored under the single fixed key
`modusql_client_id` shared by every instance in the host (the id is
per-browser-profile, not per-database), and `generateClientId` touches
no other key. -/
theorem c9_amended_key_namespacing :
    (∀ n1 n2 : String, blobKey n1 = blobKey n2 → n1 = n2) ∧
    (∀ (st : Store) (nowMs : Nat) (r k : String), k ≠ clientIdKey →
        storeGet (ModuSQL.generateClientId st nowMs r).2 k = storeGet st k) := by
  constructor
  · intro n1 n2 h
    unfold blobKey at h
    have hd : ("modusql_" ++ n1).data = ("modusql_" ++ n2).data := by rw [h]
    simp only [String.data_append] at hd
    exact String.ext (List.append_cancel_left hd)
  · intro st nowMs r k hk
    unfold ModuSQL.generateClientId
    split
    · rfl
    · exact storeGet_storePut_ne st clientIdKey k _ hk

/-- Witness for the amended C9: blob-key injectivity at equal names and
the frame property of `generateClientId` at a key it does not own. -/
theorem c9_amended_witness :
    ("a" : String) = "a" ∧
    storeGet (ModuSQL.generateClientId [] 7 "r").2 (blobKey "a") =
      storeGet ([] : Store) (blobKey "a") :=
  ⟨c9_amended_key_namespacing.1 "a" "a" rfl,
   c9_amended_key_namespacing.2 [] 7 "r" (blobKey "a") (by decide)⟩

end ModuSql
